import Mathlib

set_option linter.unusedVariables false

/-!
Shallow embedding of the Personal Finance Manager repository
(`src/transaction.py`, `src/budget.py`, `src/finance_manager.py`).

Python exceptions are modelled with `Except PyErr`; the dynamically typed
arguments the constructors receive are modelled with `PyVal`; float amounts
are modelled as rationals (Python float serialization round-trips exactly,
so the numeric identity is what matters for the claims); the CSV and JSON
files are modelled structurally, with each CSV cell classified by how the
loader's parsers treat its text.
-/

namespace FinanceApp

/-- Python exception classes that the repository's handlers distinguish. -/
inductive PyErr
  | valueError
  | typeError
  | keyError
deriving DecidableEq, Repr

/-- A calendar date as carried by a Python `datetime` value. The program only
ever constructs midnight datetimes (from `YYYY-MM-DD` strings), so the
time-of-day component is dropped here, as in the spec's data model. -/
structure Date where
  year : Nat
  month : Nat
  day : Nat
deriving DecidableEq, Repr

/-- Gregorian leap-year rule, as implemented by Python's `datetime`. -/
def isLeap (y : Nat) : Bool :=
  (y % 4 == 0 && y % 100 != 0) || y % 400 == 0

/-- Number of days of month `m` in year `y`, per the Gregorian calendar. -/
def daysInMonth (y m : Nat) : Nat :=
  if m == 2 then (if isLeap y then 29 else 28)
  else if m == 4 || m == 6 || m == 9 || m == 11 then 30
  else 31

/-- Validity of a date, matching the checks of `datetime`'s constructor
(`MINYEAR = 1`, `MAXYEAR = 9999`, day within the month). -/
def Date.valid (d : Date) : Bool :=
  1 ≤ d.year && d.year ≤ 9999 && 1 ≤ d.month && d.month ≤ 12 &&
    1 ≤ d.day && d.day ≤ daysInMonth d.year d.month

/-- Python's `str.strip()` on the underlying character list (leading and
trailing whitespace removed). -/
def stripChars (l : List Char) : List Char :=
  ((l.dropWhile Char.isWhitespace).reverse.dropWhile Char.isWhitespace).reverse

/-- Python's `str.strip()`. Implemented over the character list so that it
evaluates inside the kernel. -/
def pyStrip (s : String) : String := ⟨stripChars s.data⟩

/-- Split a character list at every dash, like `str.split("-")` restricted to
the shape `strptime` consumes for the pattern `%Y-%m-%d`. -/
def splitDashes : List Char → List (List Char)
  | [] => [[]]
  | c :: rest =>
    let r := splitDashes rest
    if c = '-' then [] :: r
    else
      match r with
      | g :: gs => (c :: g) :: gs
      | [] => [[c]]

/-- One numeric field of the `%Y-%m-%d` pattern: `minLen` to `maxLen` digits,
read as a decimal number. -/
def parseField (minLen maxLen : Nat) (l : List Char) : Option Nat :=
  if minLen ≤ l.length && l.length ≤ maxLen && l.all Char.isDigit then
    some (l.foldl (fun n c => 10 * n + (c.toNat - 48)) 0)
  else none

/-- The behavior of `datetime.strptime(s, "%Y-%m-%d")`: exactly three
dash-separated digit groups with no surrounding junk, validated as a calendar
date. CPython compiles `%Y` to exactly four digits (years below 1000 must be
zero-filled), while `%m` and `%d` accept one or two digits with the value
range checked afterwards. -/
def parseDate (s : String) : Option Date :=
  match splitDashes s.data with
  | [ys, ms, ds] =>
    match parseField 4 4 ys, parseField 1 2 ms, parseField 1 2 ds with
    | some y, some m, some d =>
      if (Date.mk y m d).valid then some ⟨y, m, d⟩ else none
    | _, _, _ => none
  | _ => none

/-- Zero-pad the decimal rendering of `n` to `len` characters. -/
def padNum (len n : Nat) : String :=
  let s := toString n
  String.mk (List.replicate (len - s.length) '0') ++ s

/-- The behavior of `date.strftime("%Y-%m-%d")`. -/
def Date.render (d : Date) : String :=
  padNum 4 d.year ++ "-" ++ padNum 2 d.month ++ "-" ++ padNum 2 d.day

/-- A dynamically typed Python value, as far as the repository's `isinstance`
checks distinguish them: strings, numbers (`int`/`float`, modelled as
rationals), `datetime` instances, and everything else. -/
inductive PyVal
  | str (s : String)
  | num (q : ℚ)
  | date (d : Date)
  | other
deriving DecidableEq

/-- A constructed transaction: exactly the attributes `Transaction.__init__`
stores. -/
structure Transaction where
  date : Date
  transaction_type : String
  category : String
  amount : ℚ
  description : String
deriving DecidableEq, Repr

namespace Transaction

/-- Description validation of `Transaction.__init__` (raises `ValueError` on a
non-string description). -/
def initDesc (d : Date) (tt c : String) (q : ℚ) : PyVal → Except PyErr Transaction
  | .str s => Except.ok ⟨d, tt, c, q, s⟩
  | _ => Except.error PyErr.valueError

/-- Amount validation of `Transaction.__init__` (`TypeError` on a non-number,
`ValueError` on a negative number). -/
def initAmount (d : Date) (tt c : String) (amount description : PyVal) :
    Except PyErr Transaction :=
  match amount with
  | .num q =>
    if q < 0 then Except.error PyErr.valueError else initDesc d tt c q description
  | _ => Except.error PyErr.typeError

/-- Category validation of `Transaction.__init__` (`ValueError` on a
non-string or a string that strips to empty). -/
def initCategory (d : Date) (tt : String) (category amount description : PyVal) :
    Except PyErr Transaction :=
  match category with
  | .str s =>
    if pyStrip s = "" then Except.error PyErr.valueError
    else initAmount d tt s amount description
  | _ => Except.error PyErr.valueError

/-- Type validation of `Transaction.__init__`: the argument must be the string
`"income"` or `"expense"` (any non-string is simply not in that list, hence
also a `ValueError`). -/
def initType (d : Date) (ttype category amount description : PyVal) :
    Except PyErr Transaction :=
  match ttype with
  | .str s =>
    if s = "income" ∨ s = "expense" then initCategory d s category amount description
    else Except.error PyErr.valueError
  | _ => Except.error PyErr.valueError

/-- `Transaction.__init__`: validates date, type, category, amount and
description in source order; a string date goes through `strptime`
(`ValueError` on failure), a `datetime` is accepted as is, anything else
raises `TypeError`. -/
def init (date ttype category amount description : PyVal) : Except PyErr Transaction :=
  match date with
  | .str s =>
    match parseDate s with
    | some d => initType d ttype category amount description
    | none => Except.error PyErr.valueError
  | .date d => initType d ttype category amount description
  | _ => Except.error PyErr.typeError

/-- The dictionary `Transaction.get_details` returns, with the date rendered
through `strftime("%Y-%m-%d")`. -/
structure Details where
  date : String
  transaction_type : String
  category : String
  amount : ℚ
  description : String
deriving DecidableEq, Repr

/-- `Transaction.get_details`. -/
def get_details (t : Transaction) : Details :=
  ⟨t.date.render, t.transaction_type, t.category, t.amount, t.description⟩

/-- The invariant `Transaction.__init__` establishes on the stored fields. -/
def Valid (t : Transaction) : Prop :=
  (t.transaction_type = "income" ∨ t.transaction_type = "expense") ∧
    pyStrip t.category ≠ "" ∧ 0 ≤ t.amount

instance (t : Transaction) : Decidable t.Valid := by
  unfold Valid
  infer_instance

end Transaction

/-- A constructed budget: exactly the attributes `Budget.__init__` stores. -/
structure Budget where
  category : String
  allocated_amount : ℚ
  spent_amount : ℚ
  period : String
deriving DecidableEq, Repr

namespace Budget

/-- Allocated-amount and period validation of `Budget.__init__` (`TypeError`
on a non-number allocation or a non-string period, `ValueError` on a
non-positive allocation); `spent_amount` starts at 0. -/
def initAlloc (c : String) (allocated period : PyVal) : Except PyErr Budget :=
  match allocated with
  | .num q =>
    if q ≤ 0 then Except.error PyErr.valueError
    else
      match period with
      | .str p => Except.ok ⟨c, q, 0, p⟩
      | _ => Except.error PyErr.typeError
  | _ => Except.error PyErr.typeError

/-- `Budget.__init__`: category validated first (`ValueError` on a non-string
or a string that strips to empty), then allocation and period. -/
def init (category allocated period : PyVal) : Except PyErr Budget :=
  match category with
  | .str s =>
    if pyStrip s = "" then Except.error PyErr.valueError
    else initAlloc s allocated period
  | _ => Except.error PyErr.valueError

/-- `Budget.add_expense`: rejects non-expense transactions and category
mismatches with `ValueError`, otherwise adds the amount to `spent_amount`.
The `isinstance(transaction, Transaction)` guard of the source is enforced
here by the argument's type. -/
def add_expense (b : Budget) (t : Transaction) : Except PyErr Budget :=
  if t.transaction_type ≠ "expense" then Except.error PyErr.valueError
  else if t.category ≠ b.category then Except.error PyErr.valueError
  else Except.ok { b with spent_amount := b.spent_amount + t.amount }

/-- `Budget.get_remaining`. -/
def get_remaining (b : Budget) : ℚ := b.allocated_amount - b.spent_amount

/-- The dictionary `Budget.get_details` returns. -/
structure Details where
  category : String
  allocated_amount : ℚ
  spent_amount : ℚ
  remaining : ℚ
  period : String
deriving DecidableEq, Repr

/-- `Budget.get_details`. -/
def get_details (b : Budget) : Details :=
  ⟨b.category, b.allocated_amount, b.spent_amount, b.get_remaining, b.period⟩

/-- The invariant `Budget.__init__` establishes on the constructor-checked
fields (`spent_amount` is unconstrained because `load_budgets` assigns it
without validation). -/
def Valid (b : Budget) : Prop :=
  pyStrip b.category ≠ "" ∧ 0 < b.allocated_amount

instance (b : Budget) : Decidable b.Valid := by
  unfold Valid
  infer_instance

end Budget

/-- One CSV cell, classified by how the loader's parsers treat its text:
`date` for text `strptime(·, "%Y-%m-%d")` accepts, `num` for text `float(·)`
accepts, and `text` for everything else (the two parsable classes are
disjoint in reality: a float literal never contains two dashes). -/
inductive Cell
  | text (s : String)
  | num (q : ℚ)
  | date (d : Date)
deriving DecidableEq, Repr

/-- The raw text of a cell, as the `csv` reader hands it to the program. -/
def Cell.asStr : Cell → String
  | .text s => s
  | .num q => toString q
  | .date d => d.render

/-- `datetime.strptime(cell, "%Y-%m-%d")` on classified cells. -/
def Cell.parseDate : Cell → Option Date
  | .date d => some d
  | _ => none

/-- `float(cell)` on classified cells. -/
def Cell.parseFloat : Cell → Option ℚ
  | .num q => some q
  | _ => none

/-- The outcome of opening a backing file: absent, unreadable (an
`OSError`/`PermissionError` is raised), or readable with the given content. -/
inductive FileRead (α : Type)
  | missing
  | readError
  | content (a : α)

/-- One record of the budgets JSON array; `none` marks an absent key
(`KeyError` on lookup). `spent_amount` is kept numeric: the source assigns
the stored value without any validation, and this embedding covers files
whose `spent_amount` values are numbers — every file the program itself
writes is of that form. -/
structure BRecord where
  category : Option PyVal
  allocated_amount : Option PyVal
  spent_amount : Option ℚ
  remaining : Option PyVal
  period : Option PyVal
deriving DecidableEq

/-- The in-memory state of a `FinanceManager`. -/
structure FinanceManager where
  transactions : List Transaction
  budgets : List Budget
deriving DecidableEq, Repr

namespace FinanceManager

/-- The budget-update loop of `add_transaction`: walk the budgets, and on the
first one whose category equals the raw `category` argument call
`add_expense` and stop; if none matches print the notice (`true`). -/
def linkExpense (cv : PyVal) (t : Transaction) : List Budget → Except PyErr (List Budget × Bool)
  | [] => Except.ok ([], true)
  | b :: rest =>
    if cv = PyVal.str b.category then
      match b.add_expense t with
      | Except.ok b2 => Except.ok (b2 :: rest, false)
      | Except.error e => Except.error e
    else
      match linkExpense cv t rest with
      | Except.ok (rs, n) => Except.ok (b :: rs, n)
      | Except.error e => Except.error e

/-- `FinanceManager.add_transaction`; the `Bool` of the result records
whether the "No budget found" notice was printed. -/
def add_transaction (fm : FinanceManager) (dv tv cv av ev : PyVal) :
    Except PyErr (FinanceManager × Bool) :=
  match Transaction.init dv tv cv av ev with
  | Except.error e => Except.error e
  | Except.ok t =>
    if tv = PyVal.str "expense" then
      match linkExpense cv t fm.budgets with
      | Except.error e => Except.error e
      | Except.ok (bs, n) =>
        Except.ok ({ transactions := fm.transactions ++ [t], budgets := bs }, n)
    else
      Except.ok ({ fm with transactions := fm.transactions ++ [t] }, false)

/-- `FinanceManager.add_budget`: raise `ValueError` when a stored budget's
category equals the raw argument, otherwise construct (propagating failures)
and append. -/
def add_budget (fm : FinanceManager) (cv av pv : PyVal) : Except PyErr FinanceManager :=
  if fm.budgets.any fun b => decide (cv = PyVal.str b.category) then
    Except.error PyErr.valueError
  else
    match Budget.init cv av pv with
    | Except.error e => Except.error e
    | Except.ok nb => Except.ok { fm with budgets := fm.budgets ++ [nb] }

/-- The header row `save_transactions` writes. -/
def headerRow : List Cell :=
  [Cell.text "date", Cell.text "transaction_type", Cell.text "category",
   Cell.text "amount", Cell.text "description"]

/-- The CSV row written for one transaction: the `get_details` values, with
the date in `%Y-%m-%d` form and the amount as a float literal. -/
def transactionRow (t : Transaction) : List Cell :=
  [Cell.date t.date, Cell.text t.transaction_type, Cell.text t.category,
   Cell.num t.amount, Cell.text t.description]

/-- `FinanceManager.save_transactions`: the header row followed by one row
per transaction, in order. -/
def save_transactions (fm : FinanceManager) : List (List Cell) :=
  headerRow :: fm.transactions.map transactionRow

/-- The body of the row loop of `load_transactions`: skip rows whose field
count is not 5, run `strptime` on field 0 and `float` on field 3, construct
the `Transaction`, and skip the row when any of these raises
(`ValueError`/`TypeError` are both caught). -/
def parseRow (row : List Cell) : Option Transaction :=
  match row with
  | [c0, c1, c2, c3, c4] =>
    match c0.parseDate with
    | none => none
    | some d =>
      match c3.parseFloat with
      | none => none
      | some q =>
        match Transaction.init (PyVal.date d) (PyVal.str c1.asStr) (PyVal.str c2.asStr)
            (PyVal.num q) (PyVal.str c4.asStr) with
        | Except.ok t => some t
        | Except.error _ => none
  | _ => none

/-- The row loop of `load_transactions`: rows are handled one by one, a
skipped row only prints a warning. -/
def loadRows : List (List Cell) → List Transaction
  | [] => []
  | row :: rest =>
    match parseRow row with
    | some t => t :: loadRows rest
    | none => loadRows rest

/-- `FinanceManager.load_transactions`: clears the list first, returns on a
missing or empty file, skips the first row (the header) and loads the rest;
a read error is caught and reported (the `Bool`) with the list left
cleared. -/
def load_transactions (fm : FinanceManager) (file : FileRead (List (List Cell))) :
    FinanceManager × Bool :=
  match file with
  | .missing => ({ fm with transactions := [] }, false)
  | .readError => ({ fm with transactions := [] }, true)
  | .content [] => ({ fm with transactions := [] }, false)
  | .content (_hdr :: rows) => ({ fm with transactions := loadRows rows }, false)

/-- The JSON record `save_budgets` writes for one budget: exactly
`Budget.get_details`. -/
def budgetRecord (b : Budget) : BRecord :=
  { category := some (PyVal.str b.category)
    allocated_amount := some (PyVal.num b.allocated_amount)
    spent_amount := some b.spent_amount
    remaining := some (PyVal.num b.get_remaining)
    period := some (PyVal.str b.period) }

/-- `FinanceManager.save_budgets`. -/
def save_budgets (fm : FinanceManager) : List BRecord :=
  fm.budgets.map budgetRecord

/-- The body of the record loop of `load_budgets`: look up the three
constructor keys (a `KeyError` is caught: `.ok none` means the record is
skipped), run `Budget.__init__` (a `ValueError` is caught and the record
skipped; a `TypeError` is NOT in the `except` clause and propagates:
`.error`), then look up and assign `spent_amount` unvalidated. -/
def loadBudgetRecord (r : BRecord) : Except PyErr (Option Budget) :=
  match r.category with
  | none => Except.ok none
  | some cv =>
    match r.allocated_amount with
    | none => Except.ok none
    | some av =>
      match r.period with
      | none => Except.ok none
      | some pv =>
        match Budget.init cv av pv with
        | Except.error PyErr.typeError => Except.error PyErr.typeError
        | Except.error _ => Except.ok none
        | Except.ok b =>
          match r.spent_amount with
          | none => Except.ok none
          | some sv => Except.ok (some { b with spent_amount := sv })

/-- The record loop of `load_budgets`: append loaded budgets until an
uncaught exception, which propagates with the records loaded so far kept. -/
def loadBudgetList : List BRecord → List Budget × Option PyErr
  | [] => ([], none)
  | r :: rest =>
    match loadBudgetRecord r with
    | Except.error e => ([], some e)
    | Except.ok none => loadBudgetList rest
    | Except.ok (some b) =>
      match loadBudgetList rest with
      | (bs, e) => (b :: bs, e)

/-- `FinanceManager.load_budgets`: clears the list first, returns on a
missing file, loads record by record; the `Bool` reports a caught whole-file
read error, the `Option PyErr` an uncaught exception escaping the method. -/
def load_budgets (fm : FinanceManager) (file : FileRead (List BRecord)) :
    FinanceManager × Bool × Option PyErr :=
  match file with
  | .missing => ({ fm with budgets := [] }, false, none)
  | .readError => ({ fm with budgets := [] }, true, none)
  | .content rs =>
    match loadBudgetList rs with
    | (bs, e) => ({ fm with budgets := bs }, false, e)

/-- States reachable through the mutating operations, with persistence
restricted to the files the manager itself writes (plus missing or unreadable
files): the discipline under which the budget-category uniqueness claim can
hold at all. -/
inductive Reachable : FinanceManager → Prop
  | init : Reachable ⟨[], []⟩
  | addT {fm fm2 : FinanceManager} {n : Bool} {dv tv cv av ev : PyVal} :
      Reachable fm → add_transaction fm dv tv cv av ev = Except.ok (fm2, n) → Reachable fm2
  | addB {fm fm2 : FinanceManager} {cv av pv : PyVal} :
      Reachable fm → add_budget fm cv av pv = Except.ok fm2 → Reachable fm2
  | loadSavedT {fm : FinanceManager} :
      Reachable fm → Reachable (load_transactions fm (FileRead.content (save_transactions fm))).1
  | loadSavedB {fm : FinanceManager} :
      Reachable fm → Reachable (load_budgets fm (FileRead.content (save_budgets fm))).1
  | loadMissingT {fm : FinanceManager} :
      Reachable fm → Reachable (load_transactions fm FileRead.missing).1
  | loadMissingB {fm : FinanceManager} :
      Reachable fm → Reachable (load_budgets fm FileRead.missing).1
  | loadErrT {fm : FinanceManager} :
      Reachable fm → Reachable (load_transactions fm FileRead.readError).1
  | loadErrB {fm : FinanceManager} :
      Reachable fm → Reachable (load_budgets fm FileRead.readError).1

end FinanceManager

open FinanceManager

/-- Sample data shared by the concrete witnesses below. -/
def tIncome : Transaction := ⟨⟨2025, 6, 25⟩, "income", "Salary", 1000, "pay"⟩

def tFood : Transaction := ⟨⟨2025, 6, 25⟩, "expense", "Food", 50, ""⟩

def bFood : Budget := ⟨"Food", 500, 0, "June 2025"⟩

def bRent : Budget := ⟨"Rent", 1200, 300, "monthly"⟩

theorem Transaction.init_ok_of_fields (d : Date) (tt c : String) (q : ℚ) (ds : String)
    (htt : tt = "income" ∨ tt = "expense") (hc : pyStrip c ≠ "") (hq : 0 ≤ q) :
    Transaction.init (PyVal.date d) (PyVal.str tt) (PyVal.str c) (PyVal.num q) (PyVal.str ds)
      = Except.ok ⟨d, tt, c, q, ds⟩ := by
  simp only [Transaction.init, Transaction.initType, if_pos htt, Transaction.initCategory,
    if_neg hc, Transaction.initAmount, if_neg (not_lt.mpr hq), Transaction.initDesc]

theorem parseRow_transactionRow (t : Transaction) (h : t.Valid) :
    parseRow (transactionRow t) = some t := by
  cases t with
  | mk d tt c q ds =>
    simp only [Transaction.Valid] at h
    obtain ⟨htt, hc, hq⟩ := h
    simp only [transactionRow, parseRow, Cell.parseDate, Cell.parseFloat, Cell.asStr,
      Transaction.init_ok_of_fields d tt c q ds htt hc hq]

theorem loadRows_map (ts : List Transaction) (h : ∀ t ∈ ts, t.Valid) :
    loadRows (ts.map transactionRow) = ts := by
  induction ts with
  | nil => rfl
  | cons t rest ih =>
    simp only [List.map_cons, loadRows, parseRow_transactionRow t (h t (List.mem_cons_self t rest)),
      ih fun x hx => h x (List.mem_cons_of_mem t hx)]

/-- C1: saving a ledger's transactions and then loading them back reproduces
the transaction list exactly — in particular the loaded list has the same
length and, element by element, identical
(date, transaction_type, category, amount, description) tuples — for every
list of valid transactions and any prior in-memory state of the loader. -/
theorem transactions_roundtrip (fm start : FinanceManager)
    (h : ∀ t ∈ fm.transactions, t.Valid) :
    (load_transactions start (FileRead.content (save_transactions fm))).1.transactions
      = fm.transactions := by
  simp only [save_transactions, load_transactions]
  exact loadRows_map fm.transactions h

/-- C1 witness: the round trip at a concrete two-transaction ledger. -/
theorem transactions_roundtrip_witness :
    (load_transactions ⟨[], []⟩
        (FileRead.content (save_transactions ⟨[tIncome, tFood], []⟩))).1.transactions
      = [tIncome, tFood] :=
  transactions_roundtrip ⟨[tIncome, tFood], []⟩ ⟨[], []⟩ (by decide)

theorem loadBudgetRecord_budgetRecord (b : Budget) (h : b.Valid) :
    loadBudgetRecord (budgetRecord b) = Except.ok (some b) := by
  cases b with
  | mk c a sp p =>
    simp only [Budget.Valid] at h
    obtain ⟨hc, ha⟩ := h
    simp only [budgetRecord, loadBudgetRecord, Budget.init, if_neg hc, Budget.initAlloc,
      if_neg (not_le.mpr ha)]

theorem loadBudgetList_map (bs : List Budget) (h : ∀ b ∈ bs, b.Valid) :
    loadBudgetList (bs.map budgetRecord) = (bs, none) := by
  induction bs with
  | nil => rfl
  | cons b rest ih =>
    simp only [List.map_cons, loadBudgetList,
      loadBudgetRecord_budgetRecord b (h b (List.mem_cons_self b rest)),
      ih fun x hx => h x (List.mem_cons_of_mem b hx)]

/-- C2: saving a ledger's budgets (nonzero spent amounts included) and
loading them back reproduces every budget's category, allocated_amount,
spent_amount and period exactly with no error; the stored "remaining" value
is never consulted by the loader; and get_remaining is always
allocated_amount minus spent_amount. -/
theorem budgets_roundtrip (fm start : FinanceManager) (h : ∀ b ∈ fm.budgets, b.Valid) :
    (load_budgets start (FileRead.content (save_budgets fm))
        = ({ start with budgets := fm.budgets }, false, none)) ∧
    (∀ (r : BRecord) (v : Option PyVal),
      loadBudgetRecord { r with remaining := v } = loadBudgetRecord r) ∧
    ∀ b : Budget, b.get_remaining = b.allocated_amount - b.spent_amount := by
  refine ⟨?_, fun r v => by cases r; rfl, fun b => rfl⟩
  simp only [save_budgets, load_budgets, loadBudgetList_map fm.budgets h]

/-- C2 witness: the round trip at a concrete two-budget ledger, one budget
carrying a nonzero spent amount. -/
theorem budgets_roundtrip_witness :
    load_budgets ⟨[], []⟩ (FileRead.content (save_budgets ⟨[], [bFood, bRent]⟩))
      = (⟨[], [bFood, bRent]⟩, false, none) :=
  (budgets_roundtrip ⟨[], [bFood, bRent]⟩ ⟨[], []⟩ (by decide)).1

/-- C3 counterexample: with one stored transaction, a failed read of the
transaction file does NOT leave the in-memory transactions unchanged — the
list was cleared before the read was attempted, so it ends up empty. -/
theorem load_readError_cex :
    (load_transactions ⟨[tIncome], [bFood]⟩ FileRead.readError).1.transactions
      ≠ [tIncome] := by decide

/-- C3 amended: when a persistence read fails, the operation reports an error
(the flag is `true`) and leaves the collection being loaded cleared — not
unchanged — while the other collection is untouched. -/
theorem load_readError_amended (fm : FinanceManager) :
    load_transactions fm FileRead.readError = ({ fm with transactions := [] }, true) ∧
      load_budgets fm FileRead.readError = ({ fm with budgets := [] }, true, none) :=
  ⟨rfl, rfl⟩

/-- What one budget record contributes after the catches of the loader:
`none` when it was skipped with a warning, the budget when it loaded. Only
meaningful on records that raise no uncaught exception. -/
def recOk (r : BRecord) : Option Budget :=
  match loadBudgetRecord r with
  | Except.ok o => o
  | Except.error _ => none

/-- Whether a budget record raises an exception the loader's except clause
does not catch (a `TypeError` out of `Budget.__init__`). -/
def recAborts (r : BRecord) : Bool :=
  match loadBudgetRecord r with
  | Except.ok _ => false
  | Except.error _ => true

theorem loadRows_eq_filterMap (rows : List (List Cell)) :
    loadRows rows = rows.filterMap parseRow := by
  induction rows with
  | nil => rfl
  | cons row rest ih =>
    simp only [loadRows, List.filterMap_cons]
    cases parseRow row <;> simp [ih]

theorem loadBudgetList_no_abort (bf : List BRecord) (h : ∀ r ∈ bf, recAborts r = false) :
    loadBudgetList bf = (bf.filterMap recOk, none) := by
  induction bf with
  | nil => rfl
  | cons r rest ih =>
    have hr := h r (List.mem_cons_self r rest)
    have hrest := ih fun x hx => h x (List.mem_cons_of_mem r hx)
    simp only [loadBudgetList, List.filterMap_cons]
    cases hx : loadBudgetRecord r with
    | error e => simp [recAborts, hx] at hr
    | ok o =>
      have : recOk r = o := by simp [recOk, hx]
      rw [this]
      cases o <;> simp [hrest]

/-- A malformed budget file whose loading the claim C4 says must not abort:
the first record fails `Budget.__init__` with a `TypeError` (its
allocated_amount is the JSON string "abc"), the second is perfectly valid. -/
def recBadAlloc : BRecord :=
  ⟨some (PyVal.str "Food"), some (PyVal.str "abc"), some 0, none, some (PyVal.str "")⟩

/-- A well-formed budget record for the category "Rent". -/
def recRent : BRecord :=
  ⟨some (PyVal.str "Rent"), some (PyVal.num 100), some 0, none, some (PyVal.str "m")⟩

/-- A budget record whose required key `allocated_amount` is absent. -/
def recNoAlloc : BRecord :=
  ⟨some (PyVal.str "Food"), none, some 0, none, some (PyVal.str "")⟩

/-- C4 counterexample: loading a budget file whose first record has a
non-numeric allocated_amount does not skip that record and continue — the
uncaught `TypeError` aborts the whole load, so the valid "Rent" record that
follows is never loaded (the budget list stays empty and the exception
escapes). -/
theorem load_budgets_abort_cex :
    (load_budgets ⟨[], []⟩ (FileRead.content [recBadAlloc, recRent])).1.budgets = [] ∧
      (load_budgets ⟨[], []⟩ (FileRead.content [recBadAlloc, recRent])).2.2
        = some PyErr.typeError := by
  constructor
  · decide
  · decide

/-- C4 amended: during a transaction load every row is handled independently
(the result is a filterMap, so one bad row never aborts the rest), a row with
a field count other than 5 or an unparsable date or amount is skipped, and
those skips are warnings only. During a budget load, a record missing a
required key or failing `Budget.__init__` with a `ValueError` is skipped with
a warning; but when the records avoid the uncaught `TypeError` case the load
completes with exactly the surviving records — a record with a non-numeric
allocated_amount or non-string period instead raises `TypeError` and aborts
the remainder of the load (see the counterexample). -/
theorem load_skips_malformed (start1 start2 : FinanceManager)
    (hdr row0 : List Cell) (rows : List (List Cell)) (bf : List BRecord)
    (hbf : ∀ r ∈ bf, recAborts r = false) :
    ((load_transactions start1 (FileRead.content (hdr :: rows))).1.transactions
        = rows.filterMap parseRow) ∧
    (row0.length ≠ 5 → parseRow row0 = none) ∧
    (∀ c0 c1 c2 c3 c4 : Cell, (c0.parseDate = none ∨ c3.parseFloat = none) →
      parseRow [c0, c1, c2, c3, c4] = none) ∧
    ((load_budgets start2 (FileRead.content bf)).1.budgets = bf.filterMap recOk ∧
      (load_budgets start2 (FileRead.content bf)).2.2 = none) ∧
    (∀ r : BRecord, (r.category = none ∨ r.allocated_amount = none ∨ r.period = none
        ∨ r.spent_amount = none) → recAborts r = false → recOk r = none) ∧
    (∀ (r : BRecord) (cv av pv : PyVal), r.category = some cv → r.allocated_amount = some av →
      r.period = some pv → Budget.init cv av pv = Except.error PyErr.valueError →
      loadBudgetRecord r = Except.ok none) := by
  refine ⟨?_, ?_, ?_, ?_, ?_, ?_⟩
  · simp only [load_transactions, loadRows_eq_filterMap]
  · intro h5
    rcases row0 with _ | ⟨c0, _ | ⟨c1, _ | ⟨c2, _ | ⟨c3, _ | ⟨c4, _ | ⟨c5, rest⟩⟩⟩⟩⟩⟩ <;>
      first
      | rfl
      | exact absurd rfl h5
  · intro c0 c1 c2 c3 c4 h
    rcases h with h | h
    · simp [parseRow, h]
    · simp only [parseRow]
      cases c0.parseDate <;> simp [h]
  · have hlist : loadBudgetList bf = (bf.filterMap recOk, none) :=
      loadBudgetList_no_abort bf hbf
    simp only [load_budgets, hlist]
    exact ⟨trivial, trivial⟩
  · intro r hmiss habort
    obtain ⟨rc, ra, rs, rr, rp⟩ := r
    simp only at hmiss
    rcases rc with _ | cv
    · simp [recOk, loadBudgetRecord]
    rcases ra with _ | av
    · simp [recOk, loadBudgetRecord]
    rcases rp with _ | pv
    · simp [recOk, loadBudgetRecord]
    rcases rs with _ | sv
    · simp only [recOk, loadBudgetRecord]
      cases hi : Budget.init cv av pv with
      | error e => cases e <;> rfl
      | ok b => rfl
    · simp at hmiss
  · intro r cv av pv hc ha hp hi
    obtain ⟨rc, ra, rs, rr, rp⟩ := r
    simp only at hc ha hp
    subst hc ha hp
    simp [loadBudgetRecord, hi]

/-- C4 witness: a budget file with one missing-key record and one valid
record loads exactly the valid record with no exception, and a concrete
3-cell row is skipped. -/
theorem load_skips_malformed_witness :
    (load_budgets ⟨[], []⟩ (FileRead.content [recNoAlloc, recRent])).1.budgets
        = [⟨"Rent", 100, 0, "m"⟩] ∧
      (load_budgets ⟨[], []⟩ (FileRead.content [recNoAlloc, recRent])).2.2 = none ∧
      parseRow [Cell.text "a", Cell.text "b", Cell.text "c"] = none := by
  have h := load_skips_malformed ⟨[], []⟩ ⟨[], []⟩ [] [Cell.text "a", Cell.text "b", Cell.text "c"]
    [] [recNoAlloc, recRent] (by decide)
  refine ⟨?_, ?_, h.2.1 (by decide)⟩
  · rw [h.2.2.2.1.1]
    decide
  · exact h.2.2.2.1.2

/-- C5: for a valid transaction, add_expense on a budget of the same category
adds exactly the transaction's amount to spent_amount and never decreases it;
an income transaction or a category mismatch raises `ValueError` (so no
updated budget is produced and the stored spent_amount is untouched). -/
theorem add_expense_spec (b : Budget) (t : Transaction) (hv : t.Valid) :
    (t.transaction_type = "expense" → t.category = b.category →
      b.add_expense t = Except.ok { b with spent_amount := b.spent_amount + t.amount } ∧
        b.spent_amount ≤ b.spent_amount + t.amount) ∧
    ((t.transaction_type = "income" ∨ t.category ≠ b.category) →
      b.add_expense t = Except.error PyErr.valueError) := by
  obtain ⟨htt, hc, hq⟩ := hv
  constructor
  · intro he hcat
    refine ⟨?_, le_add_of_nonneg_right hq⟩
    simp [Budget.add_expense, he, hcat]
  · rintro (h | h)
    · have hne : t.transaction_type ≠ "expense" := by
        rw [h]
        decide
      simp [Budget.add_expense, hne]
    · by_cases he : t.transaction_type = "expense"
      · simp [Budget.add_expense, he, h]
      · simp [Budget.add_expense, he]

/-- C5 witness: a concrete matching expense updates the spent amount to 50, a
concrete income transaction is rejected. -/
theorem add_expense_spec_witness :
    bFood.add_expense tFood = Except.ok ⟨"Food", 500, 50, "June 2025"⟩ ∧
      bFood.add_expense tIncome = Except.error PyErr.valueError := by
  constructor
  · have h := ((add_expense_spec bFood tFood (by decide)).1 rfl rfl).1
    have h2 : ({ bFood with spent_amount := bFood.spent_amount + tFood.amount } : Budget)
        = ⟨"Food", 500, 50, "June 2025"⟩ := by simp [bFood, tFood]
    exact h.trans (congrArg Except.ok h2)
  · exact (add_expense_spec bFood tIncome (by decide)).2 (Or.inl rfl)

/-- C6: constructing a transaction from any valid inputs (a calendar-valid
date given either as a datetime or as a parseable `YYYY-MM-DD` string, a type
in {income, expense}, a category that does not strip to empty, a nonnegative
amount, a string description) succeeds, and get_details returns exactly the
constructed fields, the date rendered as `YYYY-MM-DD`. -/
theorem transaction_construct_details (d : Date) (tt c : String) (q : ℚ) (ds : String)
    (hd : d.valid = true) (htt : tt = "income" ∨ tt = "expense")
    (hc : pyStrip c ≠ "") (hq : 0 ≤ q) :
    (Transaction.init (PyVal.date d) (PyVal.str tt) (PyVal.str c) (PyVal.num q) (PyVal.str ds)
        = Except.ok ⟨d, tt, c, q, ds⟩ ∧
      Transaction.get_details ⟨d, tt, c, q, ds⟩ = ⟨d.render, tt, c, q, ds⟩) ∧
    ∀ s : String, parseDate s = some d →
      Transaction.init (PyVal.str s) (PyVal.str tt) (PyVal.str c) (PyVal.num q) (PyVal.str ds)
        = Except.ok ⟨d, tt, c, q, ds⟩ := by
  have hok := Transaction.init_ok_of_fields d tt c q ds htt hc hq
  refine ⟨⟨hok, rfl⟩, fun s hs => ?_⟩
  simp only [Transaction.init, hs]
  simpa only [Transaction.init] using hok

/-- C6 witness: the concrete construction of `tIncome` from both date forms,
with its rendered details. -/
theorem transaction_construct_details_witness :
    (Transaction.init (PyVal.date ⟨2025, 6, 25⟩) (PyVal.str "income") (PyVal.str "Salary")
        (PyVal.num 1000) (PyVal.str "pay") = Except.ok tIncome ∧
      Transaction.get_details tIncome = ⟨"2025-06-25", "income", "Salary", 1000, "pay"⟩) ∧
    Transaction.init (PyVal.str "2025-06-25") (PyVal.str "income") (PyVal.str "Salary")
        (PyVal.num 1000) (PyVal.str "pay") = Except.ok tIncome := by
  have h := transaction_construct_details ⟨2025, 6, 25⟩ "income" "Salary" 1000 "pay"
    (by decide) (Or.inl rfl) (by decide) (by decide)
  exact ⟨⟨h.1.1, h.1.2.trans (by decide)⟩, h.2 "2025-06-25" (by decide)⟩

/-- A date argument `Transaction.__init__` rejects: a string `strptime` does
not accept, or a value that is neither a string nor a datetime. -/
def badDate : PyVal → Prop
  | PyVal.str s => parseDate s = none
  | PyVal.date _ => False
  | _ => True

/-- A type argument `Transaction.__init__` rejects: anything but the strings
"income" and "expense". -/
def badType (v : PyVal) : Prop := v ≠ PyVal.str "income" ∧ v ≠ PyVal.str "expense"

/-- A category argument `Transaction.__init__` rejects: a non-string, or a
string that strips to empty (empty or whitespace-only). -/
def badCategory : PyVal → Prop
  | PyVal.str s => pyStrip s = ""
  | _ => True

/-- An amount argument `Transaction.__init__` rejects: a non-number, or a
negative number. -/
def badAmount : PyVal → Prop
  | PyVal.num q => q < 0
  | _ => True

/-- A description argument `Transaction.__init__` rejects: any non-string. -/
def badDescription : PyVal → Prop
  | PyVal.str _ => False
  | _ => True

instance (v : PyVal) : Decidable (badDate v) := by
  cases v <;> simp only [badDate] <;> infer_instance

instance (v : PyVal) : Decidable (badType v) := by
  unfold badType
  infer_instance

instance (v : PyVal) : Decidable (badCategory v) := by
  cases v <;> simp only [badCategory] <;> infer_instance

instance (v : PyVal) : Decidable (badAmount v) := by
  cases v <;> simp only [badAmount] <;> infer_instance

instance (v : PyVal) : Decidable (badDescription v) := by
  cases v <;> simp only [badDescription] <;> infer_instance

theorem initDesc_error (d : Date) (tt c : String) (q : ℚ) (ev : PyVal)
    (h : badDescription ev) :
    ∃ e, Transaction.initDesc d tt c q ev = Except.error e := by
  cases ev with
  | str s => exact absurd h (by simp [badDescription])
  | num q2 => exact ⟨PyErr.valueError, rfl⟩
  | date d2 => exact ⟨PyErr.valueError, rfl⟩
  | other => exact ⟨PyErr.valueError, rfl⟩

theorem initAmount_error (d : Date) (tt c : String) (av ev : PyVal)
    (h : badAmount av ∨ badDescription ev) :
    ∃ e, Transaction.initAmount d tt c av ev = Except.error e := by
  cases av with
  | num q =>
    by_cases hq : q < 0
    · exact ⟨PyErr.valueError, by simp [Transaction.initAmount, hq]⟩
    · have hd : badDescription ev := by
        rcases h with h | h
        · exact absurd h hq
        · exact h
      obtain ⟨e, he⟩ := initDesc_error d tt c q ev hd
      exact ⟨e, by simp [Transaction.initAmount, hq, he]⟩
  | str s => exact ⟨PyErr.typeError, rfl⟩
  | date d2 => exact ⟨PyErr.typeError, rfl⟩
  | other => exact ⟨PyErr.typeError, rfl⟩

theorem initCategory_error (d : Date) (tt : String) (cv av ev : PyVal)
    (h : badCategory cv ∨ badAmount av ∨ badDescription ev) :
    ∃ e, Transaction.initCategory d tt cv av ev = Except.error e := by
  cases cv with
  | str s =>
    by_cases hs : pyStrip s = ""
    · exact ⟨PyErr.valueError, by simp [Transaction.initCategory, hs]⟩
    · have hrest : badAmount av ∨ badDescription ev := by
        rcases h with h | h
        · exact absurd h hs
        · exact h
      obtain ⟨e, he⟩ := initAmount_error d tt s av ev hrest
      exact ⟨e, by simp [Transaction.initCategory, hs, he]⟩
  | num q => exact ⟨PyErr.valueError, rfl⟩
  | date d2 => exact ⟨PyErr.valueError, rfl⟩
  | other => exact ⟨PyErr.valueError, rfl⟩

theorem initType_error (d : Date) (tv cv av ev : PyVal)
    (h : badType tv ∨ badCategory cv ∨ badAmount av ∨ badDescription ev) :
    ∃ e, Transaction.initType d tv cv av ev = Except.error e := by
  cases tv with
  | str s =>
    by_cases hs : s = "income" ∨ s = "expense"
    · have hrest : badCategory cv ∨ badAmount av ∨ badDescription ev := by
        rcases h with h | h
        · rcases hs with hs | hs <;> subst hs
          · exact absurd rfl h.1
          · exact absurd rfl h.2
        · exact h
      obtain ⟨e, he⟩ := initCategory_error d s cv av ev hrest
      exact ⟨e, by simp [Transaction.initType, hs, he]⟩
    · exact ⟨PyErr.valueError, by simp [Transaction.initType, hs]⟩
  | num q => exact ⟨PyErr.valueError, rfl⟩
  | date d2 => exact ⟨PyErr.valueError, rfl⟩
  | other => exact ⟨PyErr.valueError, rfl⟩

/-- C7: constructing a transaction with an unacceptable date (neither a
datetime nor a `YYYY-MM-DD` string), a type other than exactly "income" or
"expense", an empty or whitespace-only (or non-string) category, a negative
or non-numeric amount, or a non-string description, always raises — no
transaction is produced. -/
theorem transaction_invalid_fails (dv tv cv av ev : PyVal)
    (h : badDate dv ∨ badType tv ∨ badCategory cv ∨ badAmount av ∨ badDescription ev) :
    ∃ e, Transaction.init dv tv cv av ev = Except.error e := by
  cases dv with
  | str s =>
    cases hp : parseDate s with
    | none => exact ⟨PyErr.valueError, by simp [Transaction.init, hp]⟩
    | some d =>
      have hrest : badType tv ∨ badCategory cv ∨ badAmount av ∨ badDescription ev := by
        rcases h with h | h
        · simp only [badDate] at h
          rw [h] at hp
          cases hp
        · exact h
      obtain ⟨e, he⟩ := initType_error d tv cv av ev hrest
      exact ⟨e, by simp [Transaction.init, hp, he]⟩
  | date d =>
    have hrest : badType tv ∨ badCategory cv ∨ badAmount av ∨ badDescription ev := by
      rcases h with h | h
      · exact absurd h (by simp [badDate])
      · exact h
    obtain ⟨e, he⟩ := initType_error d tv cv av ev hrest
    exact ⟨e, by simp [Transaction.init, he]⟩
  | num q => exact ⟨PyErr.typeError, rfl⟩
  | other => exact ⟨PyErr.typeError, rfl⟩

/-- C7 witness: February 30th is not a calendar date, so a construction from
the string "2025-02-30" (with every other argument valid) fails. -/
theorem transaction_invalid_fails_witness :
    ∃ e, Transaction.init (PyVal.str "2025-02-30") (PyVal.str "expense") (PyVal.str "Food")
      (PyVal.num 10) (PyVal.str "") = Except.error e :=
  transaction_invalid_fails (PyVal.str "2025-02-30") (PyVal.str "expense") (PyVal.str "Food")
    (PyVal.num 10) (PyVal.str "") (Or.inl (by decide))

/-- C8: adding a budget whose category string exactly equals a stored
budget's category raises the duplicate `ValueError` (so the collection is
untouched); otherwise the new budget is constructed — validation failures
propagating unchanged — and appended. -/
theorem add_budget_spec (fm : FinanceManager) (cv av pv : PyVal) :
    ((∃ b ∈ fm.budgets, cv = PyVal.str b.category) →
        add_budget fm cv av pv = Except.error PyErr.valueError) ∧
    ((∀ b ∈ fm.budgets, cv ≠ PyVal.str b.category) →
      (∀ e, Budget.init cv av pv = Except.error e →
          add_budget fm cv av pv = Except.error e) ∧
      ∀ nb, Budget.init cv av pv = Except.ok nb →
        add_budget fm cv av pv = Except.ok { fm with budgets := fm.budgets ++ [nb] }) := by
  have hiff : (fm.budgets.any fun b => decide (cv = PyVal.str b.category)) = true
      ↔ ∃ b ∈ fm.budgets, cv = PyVal.str b.category := by
    simp [List.any_eq_true]
  constructor
  · intro h
    simp only [add_budget, if_pos (hiff.mpr h)]
  · intro h
    have hneg : ¬ (fm.budgets.any fun b => decide (cv = PyVal.str b.category)) = true := by
      rw [hiff]
      rintro ⟨b, hb, he⟩
      exact h b hb he
    refine ⟨fun e he => ?_, fun nb hnb => ?_⟩
    · simp only [add_budget, if_neg hneg, he]
    · simp only [add_budget, if_neg hneg, hnb]

/-- C8 witness: with a "Food" budget stored, adding "Food" again fails with
the duplicate error while adding "Rent" succeeds and appends. -/
theorem add_budget_spec_witness :
    add_budget ⟨[], [bFood]⟩ (PyVal.str "Food") (PyVal.num 300) (PyVal.str "")
        = Except.error PyErr.valueError ∧
      add_budget ⟨[], [bFood]⟩ (PyVal.str "Rent") (PyVal.num 300) (PyVal.str "")
        = Except.ok ⟨[], [bFood, ⟨"Rent", 300, 0, ""⟩]⟩ := by
  constructor
  · exact (add_budget_spec ⟨[], [bFood]⟩ (PyVal.str "Food") (PyVal.num 300) (PyVal.str "")).1
      ⟨bFood, by decide, by decide⟩
  · exact ((add_budget_spec ⟨[], [bFood]⟩ (PyVal.str "Rent") (PyVal.num 300)
      (PyVal.str "")).2 (by decide)).2 ⟨"Rent", 300, 0, ""⟩ rfl

theorem linkExpense_no_match (c : String) (t : Transaction) (bs : List Budget)
    (h : ∀ b ∈ bs, c ≠ b.category) :
    linkExpense (PyVal.str c) t bs = Except.ok (bs, true) := by
  induction bs with
  | nil => rfl
  | cons b rest ih =>
    have hb : ¬ (PyVal.str c = PyVal.str b.category) := fun hh =>
      h b (List.mem_cons_self b rest) (PyVal.str.inj hh)
    simp only [linkExpense, if_neg hb, ih fun x hx => h x (List.mem_cons_of_mem b hx)]

/-- C9: adding a valid expense transaction when no stored budget has its
category does not fail — the transaction is appended, the missing-budget
notice is reported (the `true` flag), and the budget list (hence every
spent_amount) is unchanged. -/
theorem add_transaction_no_budget (fm : FinanceManager) (dv av ev : PyVal) (c : String)
    (t : Transaction)
    (hinit : Transaction.init dv (PyVal.str "expense") (PyVal.str c) av ev = Except.ok t)
    (hnb : ∀ b ∈ fm.budgets, c ≠ b.category) :
    add_transaction fm dv (PyVal.str "expense") (PyVal.str c) av ev
      = Except.ok ({ fm with transactions := fm.transactions ++ [t] }, true) := by
  simp [add_transaction, hinit, linkExpense_no_match c t fm.budgets hnb]

/-- A concrete expense in a category ("Games") no sample budget tracks. -/
def tGames : Transaction := ⟨⟨2025, 6, 25⟩, "expense", "Games", 20, ""⟩

/-- C9 witness: with only a "Food" budget stored, a "Games" expense is
recorded, the notice flag is set, and the budgets are untouched. -/
theorem add_transaction_no_budget_witness :
    add_transaction ⟨[tIncome], [bFood]⟩ (PyVal.date ⟨2025, 6, 25⟩) (PyVal.str "expense")
        (PyVal.str "Games") (PyVal.num 20) (PyVal.str "")
      = Except.ok (⟨[tIncome, tGames], [bFood]⟩, true) :=
  add_transaction_no_budget ⟨[tIncome], [bFood]⟩ (PyVal.date ⟨2025, 6, 25⟩) (PyVal.num 20)
    (PyVal.str "") "Games" tGames rfl (by decide)

/-- A well-formed budget record for the category "Food", loadable as is. -/
def recFoodA : BRecord :=
  ⟨some (PyVal.str "Food"), some (PyVal.num 100), some 0, none, some (PyVal.str "")⟩

/-- C10 counterexample: loading a budget file that repeats the category
"Food" puts two budgets with the same category into memory — the loader
never deduplicates, so states reached through loads of arbitrary file
contents violate per-category uniqueness. -/
theorem budget_unique_cex :
    ¬ ((load_budgets ⟨[], []⟩ (FileRead.content [recFoodA, recFoodA])).1.budgets.map
        Budget.category).Nodup := by decide

theorem add_expense_ok_category (b b2 : Budget) (t : Transaction)
    (h : b.add_expense t = Except.ok b2) : b2.category = b.category := by
  simp only [Budget.add_expense] at h
  by_cases h1 : t.transaction_type ≠ "expense"
  · rw [if_pos h1] at h
    cases h
  · rw [if_neg h1] at h
    by_cases h2 : t.category ≠ b.category
    · rw [if_pos h2] at h
      cases h
    · rw [if_neg h2] at h
      cases h
      rfl

theorem linkExpense_categories (cv : PyVal) (t : Transaction) (bs : List Budget) :
    ∀ (bs2 : List Budget) (n : Bool), linkExpense cv t bs = Except.ok (bs2, n) →
      bs2.map Budget.category = bs.map Budget.category := by
  induction bs with
  | nil =>
    intro bs2 n h
    simp only [linkExpense] at h
    cases h
    rfl
  | cons b rest ih =>
    intro bs2 n h
    simp only [linkExpense] at h
    by_cases hc : cv = PyVal.str b.category
    · rw [if_pos hc] at h
      cases hae : b.add_expense t with
      | ok b3 =>
        rw [hae] at h
        cases h
        simp [add_expense_ok_category b b3 t hae]
      | error e =>
        rw [hae] at h
        cases h
    · rw [if_neg hc] at h
      cases hl : linkExpense cv t rest with
      | ok p =>
        obtain ⟨rs, nn⟩ := p
        rw [hl] at h
        cases h
        simp only [List.map_cons]
        exact congrArg (List.cons b.category) (ih _ _ hl)
      | error e =>
        rw [hl] at h
        cases h

theorem add_transaction_ok_categories (fm fm2 : FinanceManager) (n : Bool)
    (dv tv cv av ev : PyVal)
    (h : add_transaction fm dv tv cv av ev = Except.ok (fm2, n)) :
    fm2.budgets.map Budget.category = fm.budgets.map Budget.category := by
  simp only [add_transaction] at h
  split at h
  · cases h
  · rename_i t hi
    split at h
    · split at h
      · cases h
      · rename_i bs nn hl
        cases h
        exact linkExpense_categories cv t fm.budgets _ _ hl
    · cases h
      rfl

theorem budget_init_ok_cv (cv av pv : PyVal) (nb : Budget)
    (h : Budget.init cv av pv = Except.ok nb) : cv = PyVal.str nb.category := by
  cases cv with
  | str s =>
    simp only [Budget.init] at h
    by_cases hs : pyStrip s = ""
    · rw [if_pos hs] at h
      cases h
    · rw [if_neg hs] at h
      cases av with
      | num q =>
        simp only [Budget.initAlloc] at h
        by_cases hq : q ≤ 0
        · rw [if_pos hq] at h
          cases h
        · rw [if_neg hq] at h
          cases pv with
          | str p => cases h; rfl
          | num q2 => cases h
          | date d2 => cases h
          | other => cases h
      | str s2 => simp only [Budget.initAlloc] at h; cases h
      | date d2 => simp only [Budget.initAlloc] at h; cases h
      | other => simp only [Budget.initAlloc] at h; cases h
  | num q => simp only [Budget.init] at h; cases h
  | date d => simp only [Budget.init] at h; cases h
  | other => simp only [Budget.init] at h; cases h

theorem add_budget_ok (fm fm2 : FinanceManager) (cv av pv : PyVal)
    (h : add_budget fm cv av pv = Except.ok fm2) :
    ∃ nb, fm2.budgets = fm.budgets ++ [nb] ∧ cv = PyVal.str nb.category ∧
      ∀ b ∈ fm.budgets, cv ≠ PyVal.str b.category := by
  simp only [add_budget] at h
  by_cases hany : (fm.budgets.any fun b => decide (cv = PyVal.str b.category)) = true
  · rw [if_pos hany] at h
    cases h
  · rw [if_neg hany] at h
    cases hi : Budget.init cv av pv with
    | error e =>
      rw [hi] at h
      cases h
    | ok nb =>
      rw [hi] at h
      cases h
      refine ⟨nb, rfl, budget_init_ok_cv cv av pv nb hi, fun b hb he => ?_⟩
      apply hany
      rw [List.any_eq_true]
      exact ⟨b, hb, decide_eq_true he⟩

theorem loadBudgetRecord_saved (b : Budget) :
    loadBudgetRecord (budgetRecord b) = Except.ok none ∨
      loadBudgetRecord (budgetRecord b) = Except.ok (some b) := by
  by_cases hc : pyStrip b.category = ""
  · left
    simp [loadBudgetRecord, budgetRecord, Budget.init, hc]
  · by_cases ha : b.allocated_amount ≤ 0
    · left
      simp [loadBudgetRecord, budgetRecord, Budget.init, hc, Budget.initAlloc, ha]
    · right
      cases b with
      | mk c a sp p =>
        simp only at hc ha
        simp [loadBudgetRecord, budgetRecord, Budget.init, hc, Budget.initAlloc, ha]

theorem loadBudgetList_saved (bs : List Budget) :
    List.Sublist (loadBudgetList (bs.map budgetRecord)).1 bs := by
  induction bs with
  | nil => simp [loadBudgetList]
  | cons b rest ih =>
    rcases loadBudgetRecord_saved b with h | h
    · simp only [List.map_cons, loadBudgetList, h]
      exact ih.cons b
    · simp only [List.map_cons, loadBudgetList, h]
      rcases hp : loadBudgetList (rest.map budgetRecord) with ⟨bs2, e2⟩
      rw [hp] at ih
      simp only [hp]
      exact List.Sublist.cons₂ b ih

theorem load_transactions_budgets (fm : FinanceManager) (f : FileRead (List (List Cell))) :
    (load_transactions fm f).1.budgets = fm.budgets := by
  cases f with
  | missing => rfl
  | readError => rfl
  | content rows => cases rows <;> rfl

theorem load_budgets_saved_sublist (fm : FinanceManager) :
    List.Sublist (load_budgets fm (FileRead.content (save_budgets fm))).1.budgets fm.budgets := by
  simp only [load_budgets, save_budgets]
  rcases hp : loadBudgetList (fm.budgets.map budgetRecord) with ⟨bs, e⟩
  have h := loadBudgetList_saved fm.budgets
  rw [hp] at h
  simpa using h

/-- C10 amended: per-category uniqueness of budgets holds in every state
reachable through add_transaction, add_budget, and persistence restricted to
the files the manager itself saved (or missing/unreadable files) — but not
under loads of arbitrary file contents, which can inject duplicate
categories (see the counterexample). -/
theorem budget_categories_unique (fm : FinanceManager) (h : Reachable fm) :
    (fm.budgets.map Budget.category).Nodup := by
  induction h with
  | init => simp
  | addT hr hok ih =>
    rw [add_transaction_ok_categories _ _ _ _ _ _ _ _ hok]
    exact ih
  | addB hr hok ih =>
    obtain ⟨nb, hb, hcv, hall⟩ := add_budget_ok _ _ _ _ _ hok
    rw [hb, List.map_append, List.nodup_append]
    refine ⟨ih, List.nodup_singleton _, ?_⟩
    intro x hx hx2
    simp only [List.map_cons, List.map_nil, List.mem_singleton] at hx2
    subst hx2
    obtain ⟨b, hbmem, hbcat⟩ := List.mem_map.mp hx
    exact hall b hbmem (by rw [hcv, hbcat])
  | loadSavedT hr ih =>
    rw [load_transactions_budgets]
    exact ih
  | loadSavedB hr ih =>
    exact List.Nodup.sublist ((load_budgets_saved_sublist _).map Budget.category) ih
  | loadMissingT hr ih =>
    rw [load_transactions_budgets]
    exact ih
  | loadMissingB hr ih => simp [load_budgets]
  | loadErrT hr ih =>
    rw [load_transactions_budgets]
    exact ih
  | loadErrB hr ih => simp [load_budgets]

/-- C10 witness: the invariant at the concrete state reached by adding one
"Food" budget to a fresh manager. -/
theorem budget_categories_unique_witness :
    ((⟨[], [⟨"Food", 500, 0, ""⟩]⟩ : FinanceManager).budgets.map Budget.category).Nodup :=
  budget_categories_unique ⟨[], [⟨"Food", 500, 0, ""⟩]⟩
    (@Reachable.addB ⟨[], []⟩ ⟨[], [⟨"Food", 500, 0, ""⟩]⟩ (PyVal.str "Food") (PyVal.num 500)
      (PyVal.str "") Reachable.init rfl)

end FinanceApp
